import Mathlib

/-!
Verification of the `TouchScreen` scroll controller
(`src/models/touch-screen.ts` of the touch-ts repository).

The controller is a single stateful class wired to pointer events.  We embed
it shallowly:

* JavaScript numbers are modelled as exact rationals (`ℚ`);
* the mutable instance fields become a `World` record, threaded explicitly;
* the configuration fields fixed by the constructor become a `Config` record
  passed separately (they are never mutated after construction);
* each event handler (`onStart`, `onMove`, `onEnd`), the settle timeout
  callback and the fling-interval callback become pure functions
  `Config → World → … → World`, and an event interpreter `step`/`run` folds a
  list of delivered events over a world, mirroring the single-threaded event
  loop from which the handlers are invoked;
* `setInterval`/`clearInterval` are modelled by a registry of active interval
  ids (`World.flings`) together with the stored handle
  (`World.scrollInterval`); `setTimeout` for the settle delay is modelled by
  the flag `World.stopPending`;
* `window.addEventListener`/`removeEventListener` for the move handler are
  modelled by a registry of registered listener identities
  (`World.moveListeners`): each evaluation of `this.onMove.bind(this)`
  creates a fresh function object, modelled by drawing a fresh identity from
  the counter `World.boundId`; `addEventListener` registers that identity and
  `removeEventListener` erases listeners reference-equal to it — so, as in
  the host environment, `removeMoveEvent`'s freshly bound function matches no
  registered listener and removes nothing.  Separately, the boolean
  `World.moveListening` is specification-level ghost state marking the
  state machine's tracking phase (entered on a successful start event, exited
  on the end event); it models no host-environment state;
* the DOM lookup done by `onStart` (`findScrollable` on the event target) is
  abstracted by a boolean event payload saying whether a scrollable element
  was found; `findScrollable` itself is modelled separately over an abstract
  ancestor relation (`Dom`) and verified on its own;
* `event.preventDefault()` is an effect on the host event: handlers that may
  call it return an extra `Bool` recording whether they did;
* the scrolled element's `scrollLeft`/`scrollTop` offsets live in the world
  (`scrollLeft`, `scrollTop`); `getScrollability` gets its own small DOM node
  model carrying the computed style and extent values it reads.
-/

/-- The `TouchTypes` enum from `src/types/touch-screen.ts`. -/
inductive TouchTypes where
  | HORIZONTAL
  | VERTICAL
  | BOTH
deriving DecidableEq, Repr

/-- Static `TouchScreen.MOVEMENT_STEPS = 20`: basic step budget of a smooth
movement. -/
def MOVEMENT_STEPS : ℚ := 20

/-- Static `TouchScreen.STOP_DELAY = 1`: milliseconds before the scroll is
marked finished. -/
def STOP_DELAY : ℚ := 1

/-- Static `TouchScreen.TIME_MULTIPLIER = 0.008`: multiplier applied to delta
time when computing the speed of a continuous movement. -/
def TIME_MULTIPLIER : ℚ := 8 / 1000

/-- Static `TouchScreen.ZERO_THRESHOLD = 200`: milliseconds between movement
changes beyond which the movement counts as interrupted. -/
def ZERO_THRESHOLD : ℚ := 200

/-- The constructor-fixed configuration of a `TouchScreen` instance.  These
fields are assigned once in the constructor and never mutated. -/
structure Config where
  continuous : Bool
  type : TouchTypes
  minimum : ℚ
  sensibility : ℚ
deriving DecidableEq, Repr

/-- The state captured by one `setInterval` closure created in
`smoothScrollBy`: the captured `element` argument (modelled by whether the
reference is non-null), the mutable `delta` object, the `time` step budget and
the mutable `count` of ticks taken. -/
structure Fling where
  element : Bool
  dx : ℚ
  dy : ℚ
  time : ℚ
  count : ℕ
deriving DecidableEq, Repr

/-- The mutable state of a `TouchScreen` instance, together with the bits of
the host environment it drives: the active intervals registry, the window's
registered move listeners, and the scrolled element's offsets.
`moveListening` is ghost state marking the spec's tracking phase (it models
no host state; the actual listener registry is `moveListeners`), and
`boundId` is the freshness counter for function objects created by
`this.onMove.bind(this)`. -/
structure World where
  element : Option Unit
  lastDeltaX : ℚ
  lastDeltaY : ℚ
  lastEnd : ℚ
  lastStart : ℚ
  lastX : ℚ
  lastY : ℚ
  scrolling : Bool
  totalDelta : ℚ
  moveListening : Bool
  stopPending : Bool
  flings : List (ℕ × Fling)
  scrollInterval : Option ℕ
  nextId : ℕ
  scrollLeft : ℚ
  scrollTop : ℚ
  moveListeners : List ℕ
  boundId : ℕ
deriving DecidableEq, Repr

/-- The all-zero/none state a fresh instance starts from. -/
def init : World :=
  { element := none, lastDeltaX := 0, lastDeltaY := 0, lastEnd := 0,
    lastStart := 0, lastX := 0, lastY := 0, scrolling := false,
    totalDelta := 0, moveListening := false, stopPending := false,
    flings := [], scrollInterval := none, nextId := 0,
    scrollLeft := 0, scrollTop := 0, moveListeners := [], boundId := 0 }

/-- `getDelta`: applies the sensibility factor.  The constructor replaces the
identity with multiplication by `sensibility` exactly when
`sensibility ≠ 1`. -/
def getDelta (c : Config) (value : ℚ) : ℚ :=
  if c.sensibility ≠ 1 then value * c.sensibility else value

/-- `scrollBy`: applies raw deltas to the active element's offsets.  The
constructor swaps in an horizontal-only or vertical-only version according to
`type`; the default body drives both axes. -/
def scrollBy (c : Config) (w : World) (x y : ℚ) : World :=
  match c.type with
  | TouchTypes.HORIZONTAL => { w with scrollLeft := w.scrollLeft + getDelta c x }
  | TouchTypes.VERTICAL => { w with scrollTop := w.scrollTop + getDelta c y }
  | TouchTypes.BOTH =>
      { w with scrollLeft := w.scrollLeft + getDelta c x,
               scrollTop := w.scrollTop + getDelta c y }

/-- `clearInterval(this.scrollInterval)`: deactivates the interval whose
handle is stored in `scrollInterval` (a no-op on an already-cleared handle,
as in the host environment). -/
def clearIntervalW (w : World) : World :=
  match w.scrollInterval with
  | none => w
  | some h => { w with flings := w.flings.filter (fun p => p.1 ≠ h) }

/-- `smoothScrollBy(element, x, y, time)`: clears any interval stored in
`scrollInterval`, then registers a fresh interval whose closure captures
`element`, the remaining `delta` and the step budget `time`, and stores its
handle. -/
def smoothScrollBy (w : World) (element : Bool) (x y time : ℚ) : World :=
  let w := if w.scrollInterval ≠ none then clearIntervalW w else w
  { w with flings := w.flings ++ [(w.nextId, ⟨element, x, y, time, 0⟩)],
           scrollInterval := some w.nextId,
           nextId := w.nextId + 1 }

/-- `addMoveEvent`:
`window.addEventListener(this.eventNames.move, this.onMove.bind(this))`.
The `bind` call creates a fresh function object — the identity `w.boundId`,
consumed from the freshness counter — and `addEventListener` registers it
(it equals no already-registered listener, so it is always appended). -/
def addMoveEvent (w : World) : World :=
  { w with moveListeners := w.moveListeners ++ [w.boundId],
           boundId := w.boundId + 1 }

/-- `removeMoveEvent`:
`window.removeEventListener(this.eventNames.move, this.onMove.bind(this))`.
The `bind` call again creates a fresh function object (identity `w.boundId`),
and `removeEventListener` erases the listeners reference-equal to it.  Since
that identity was only just created, no registered listener can equal it, so
the erasure removes nothing — the move listener stays attached, as in the
host environment. -/
def removeMoveEvent (w : World) : World :=
  { w with moveListeners := w.moveListeners.filter (fun f => f ≠ w.boundId),
           boundId := w.boundId + 1 }

/-- `onStart`: assigns `element` from the scrollable lookup on the event
target (abstracted by `found`), and if one was found resets `totalDelta`,
records `lastStart` in continuous mode, records the event coordinates and
registers a move listener via `addMoveEvent`.  The ghost phase marker
`moveListening` is set: the controller enters the spec's tracking phase. -/
def onStart (c : Config) (w : World) (found : Bool) (x y t : ℚ) : World :=
  let w := { w with element := if found then some () else none }
  match w.element with
  | none => w
  | some _ =>
      let w := { w with totalDelta := 0 }
      let w := if c.continuous then { w with lastStart := t } else w
      addMoveEvent { w with lastX := x, lastY := y, moveListening := true }

/-- `onMove`: a no-op when no element is set; otherwise suppresses the
default action, applies the inverted pointer delta through `scrollBy`,
updates the last coordinates and `totalDelta`, and once `totalDelta` exceeds
`minimum` marks `scrolling` and (in continuous mode) either resets the
velocity accumulator when the gap since `lastStart` exceeds the zero-motion
threshold or accumulates the sensibility-scaled delta.  The returned boolean
records whether `preventDefault` was called. -/
def onMove (c : Config) (w : World) (x y t : ℚ) : World × Bool :=
  match w.element with
  | none => (w, false)
  | some _ =>
      let dx := w.lastX - x
      let dy := w.lastY - y
      let w := scrollBy c w dx dy
      let w := { w with lastX := x, lastY := y,
                        totalDelta := w.totalDelta + |dx| + |dy| }
      if w.totalDelta > c.minimum then
        let w := { w with scrolling := true }
        if c.continuous then
          if t - w.lastStart > ZERO_THRESHOLD then
            ({ w with lastDeltaX := 0, lastDeltaY := 0, lastStart := t }, true)
          else
            ({ w with lastDeltaX := w.lastDeltaX + getDelta c dx,
                      lastDeltaY := w.lastDeltaY + getDelta c dy }, true)
        else (w, true)
      else (w, true)

/-- `onEnd`: first calls `removeMoveEvent` — which, passing a freshly bound
function to `removeEventListener`, removes no registered listener; the ghost
phase marker `moveListening` is cleared, since the end event exits the spec's
tracking phase either way.  When `totalDelta` is below `minimum` it then
clears `element` and `scrolling` and returns without suppressing the default
action; otherwise it suppresses it, in continuous mode derives the per-axis
release velocity and step budget and starts the fling, zeroing the velocity
accumulator, and finally clears `scrolling` and (re)schedules the settle
timeout.  The returned boolean records whether `preventDefault` was
called. -/
def onEnd (c : Config) (w : World) (t : ℚ) : World × Bool :=
  let w := removeMoveEvent w
  let w := { w with moveListening := false }
  if w.totalDelta < c.minimum then
    ({ w with element := none, scrolling := false }, false)
  else
    let w :=
      if c.continuous then
        let w := { w with lastEnd := t }
        let time := (w.lastEnd - w.lastStart) * TIME_MULTIPLIER
        let dx := if w.lastDeltaX ≠ 0 then w.lastDeltaX / time else 0
        let dy := if w.lastDeltaY ≠ 0 then w.lastDeltaY / time else 0
        let w := smoothScrollBy w w.element.isSome dx dy (MOVEMENT_STEPS / time)
        { w with lastDeltaX := 0, lastDeltaY := 0 }
      else w
    let w := { w with scrolling := false }
    ({ w with stopPending := true }, true)

/-- The settle-timeout callback scheduled by `onEnd`: when the timeout is
still pending it clears `element` and `scrolling`.  (A fire event for a
timeout that is not scheduled does not occur; it is modelled as the
identity.) -/
def onStopTimeout (w : World) : World :=
  if w.stopPending then
    { w with stopPending := false, element := none, scrolling := false }
  else w

/-- One tick of the interval registered by `smoothScrollBy` (only active
intervals tick).  When the captured element reference is null the interval
clears itself; otherwise each axis whose remaining delta exceeds 1 in
magnitude and is permitted by `type` receives `remaining / time`, which is
subtracted from the remaining delta; the tick counter increments, and once it
reaches the step budget the interval clears itself. -/
def flingTick (c : Config) (w : World) (id : ℕ) : World :=
  match w.flings.find? (fun p => p.1 == id) with
  | none => w
  | some (i, f) =>
      if f.element = false then clearIntervalW w
      else
        let newLeft := if 1 < |f.dx| ∧ c.type ≠ TouchTypes.VERTICAL then
            w.scrollLeft + f.dx / f.time else w.scrollLeft
        let newDx := if 1 < |f.dx| ∧ c.type ≠ TouchTypes.VERTICAL then
            f.dx - f.dx / f.time else f.dx
        let newTop := if 1 < |f.dy| ∧ c.type ≠ TouchTypes.HORIZONTAL then
            w.scrollTop + f.dy / f.time else w.scrollTop
        let newDy := if 1 < |f.dy| ∧ c.type ≠ TouchTypes.HORIZONTAL then
            f.dy - f.dy / f.time else f.dy
        let newCount := f.count + 1
        let w := { w with scrollLeft := newLeft, scrollTop := newTop,
                          flings := w.flings.map (fun p =>
                            if p.1 == i then
                              (i, ⟨f.element, newDx, newDy, f.time, newCount⟩)
                            else p) }
        if (newCount : ℚ) ≥ f.time then clearIntervalW w else w

/-- `isScrolling()`: true while the scrolling flag is set and an element is
being scrolled. -/
def isScrolling (w : World) : Bool :=
  w.scrolling && w.element.isSome

/-- The events the host loop can deliver to the controller: the three pointer
events (a start event carries whether the scrollable lookup on its target
succeeds, and its coordinates and timestamp), the settle-timeout fire and a
tick of the interval with the given handle. -/
inductive Ev where
  | start (found : Bool) (x y t : ℚ)
  | move (x y t : ℚ)
  | endEv (t : ℚ)
  | stopFire
  | tick (id : ℕ)
deriving DecidableEq, Repr

/-- Dispatch one delivered event to its handler. -/
def step (c : Config) (w : World) : Ev → World
  | Ev.start found x y t => onStart c w found x y t
  | Ev.move x y t => (onMove c w x y t).1
  | Ev.endEv t => (onEnd c w t).1
  | Ev.stopFire => onStopTimeout w
  | Ev.tick id => flingTick c w id

/-- Deliver a list of events in order. -/
def run (c : Config) (w : World) (evs : List Ev) : World :=
  evs.foldl (step c) w

/-- Package a list of `(x, y, timestamp)` pointer positions as move
events. -/
def moveEvs (ms : List (ℚ × ℚ × ℚ)) : List Ev :=
  ms.map (fun m => Ev.move m.1 m.2.1 m.2.2)

/-- The total accumulated distance of a drag: the sum over the move events of
`|dx| + |dy|`, where each delta is taken against the previous position
(starting from the start event's coordinates).  This is the value
`totalDelta` holds after the moves are processed. -/
def sessionDistance (x y : ℚ) : List (ℚ × ℚ × ℚ) → ℚ
  | [] => 0
  | (x2, y2, _) :: rest => (|x - x2| + |y - y2|) + sessionDistance x2 y2 rest

/-- The event list of one drag session: a start event that finds a scrollable
element, the given moves, and the end event. -/
def sessionEvs (x0 y0 t0 : ℚ) (ms : List (ℚ × ℚ × ℚ)) (te : ℚ) : List Ev :=
  Ev.start true x0 y0 t0 :: (moveEvs ms ++ [Ev.endEv te])

/-- An abstract document for `findScrollable`: elements are names, each has
an optional parent (`parentElement`), and the instance's `isScrollable`
predicate classifies them. -/
structure Dom where
  parent : ℕ → Option ℕ
  isScrollable : ℕ → Bool

/-- Fuel-indexed core of `findScrollable`; the fuel is the number of
recursive calls still allowed before the iteration counter passes the
iteration limit. -/
def findScrollableAux (dom : Dom) : ℕ → Option ℕ → Option ℕ
  | _, none => none
  | fuel, some e =>
      if dom.isScrollable e then some e
      else
        match fuel with
        | 0 => none
        | f + 1 => findScrollableAux dom f (dom.parent e)

/-- `findScrollable(startElement, iteration)`: walks upward from
`startElement` through parents, returning the first element satisfying
`isScrollable`, `null` when the chain ends or the iteration counter passes
`iterationLimit`.  Defined through `findScrollableAux` so that it computes by
structural recursion; `findScrollable_recurrence` below proves it satisfies
the source's recursion verbatim. -/
def findScrollable (dom : Dom) (iterationLimit : ℕ) (startElement : Option ℕ)
    (iteration : ℕ) : Option ℕ :=
  findScrollableAux dom (iterationLimit + 1 - iteration) startElement

/-- The element `k` parent-hops above `e` (hop 0 is `e` itself), when the
chain is long enough. -/
def hop (dom : Dom) : ℕ → ℕ → Option ℕ
  | e, 0 => some e
  | e, k + 1 =>
      match dom.parent e with
      | none => none
      | some p => hop dom p k

/-- Decidable form of "no element fewer than `n` hops above `e` satisfies
`isScrollable`". -/
def noneScrollableBelow (dom : Dom) (e n : ℕ) : Bool :=
  (List.range n).all (fun k =>
    match hop dom e k with
    | none => true
    | some a => !dom.isScrollable a)

/-- The computed style and extent values `getScrollability` reads off an
`HTMLElement`. -/
structure HTMLElementData where
  overflowX : String
  overflowY : String
  scrollWidth : ℚ
  clientWidth : ℚ
  scrollHeight : ℚ
  clientHeight : ℚ
deriving DecidableEq, Repr

/-- A DOM node as seen by `getScrollability`: either an `HTMLElement`
carrying the data the check consults, or any other kind of node (which
carries no style or extent data at all). -/
inductive DomNode where
  | htmlElement (e : HTMLElementData)
  | otherNode (tag : String)
deriving DecidableEq, Repr

/-- `getScrollability(element)`: `{x | y: false}` for a node that fails the
`instanceof HTMLElement` guard; otherwise per-axis, the overflow style allows
scrolling and the scroll extent exceeds the client extent by more than 1. -/
def getScrollability : DomNode → Bool × Bool
  | DomNode.otherNode _ => (false, false)
  | DomNode.htmlElement e =>
      let overflowXAllows : Bool :=
        e.overflowX == "auto" || e.overflowX == "scroll" || e.overflowX == "overlay"
      let overflowYAllows : Bool :=
        e.overflowY == "auto" || e.overflowY == "scroll" || e.overflowY == "overlay"
      let x := overflowXAllows && decide (e.scrollWidth > e.clientWidth + 1)
      let y := overflowYAllows && decide (e.scrollHeight > e.clientHeight + 1)
      (x, y)

/-- A 52-deep ancestor chain 0 → 1 → … → 51 in which only element 51 —
exactly `iterationLimit + 1` hops above the start — is scrollable. -/
def domDeep52 : Dom :=
  { parent := fun n => if n < 51 then some (n + 1) else none,
    isScrollable := fun n => n == 51 }

/-- A 60-deep ancestor chain 0 → 1 → … → 59 whose only scrollable element is
the outermost one, 59 hops above the start. -/
def domDeep60 : Dom :=
  { parent := fun n => if n < 59 then some (n + 1) else none,
    isScrollable := fun n => n == 59 }

/-- The configuration of a default instance: continuous, both axes,
`minimum = 25`, `sensibility = 1`. -/
def cfgB : Config := ⟨true, TouchTypes.BOTH, 25, 1⟩

/-- A tracking state at release time: accumulated x-delta 100, qualifying
distance, window started at timestamp 0. -/
def wRelease : World :=
  { init with element := some (), totalDelta := 100, lastDeltaX := 100 }

/-- The zero-accumulator tracking state a session starts from. -/
def wE : World := { init with element := some () }

/-- A horizontal-only configuration. -/
def cfgH : Config := ⟨true, TouchTypes.HORIZONTAL, 25, 1⟩

/-- A vertical-only configuration. -/
def cfgV : Config := ⟨true, TouchTypes.VERTICAL, 25, 1⟩

/-- A world with nonzero scroll offsets. -/
def wOff : World := { init with scrollLeft := 5, scrollTop := 7 }

/-- The timer-registry invariant: either no fling interval is active, or
exactly the one whose handle is stored in `scrollInterval` is. -/
def FlingInv (w : World) : Prop :=
  w.flings = [] ∨ ∃ h f, w.scrollInterval = some h ∧ w.flings = [(h, f)]

/-- The spec's tracking state: the controller is listening for move events of
an active drag. -/
def Tracking (w : World) : Prop := w.moveListening = true

/-- The spec's coasting state: a fling interval is still active. -/
def Coasting (w : World) : Prop := w.flings ≠ []

/-- The relation that actually ties `element` to the phases: a non-null
element implies move listening or a pending settle clear. -/
def ElementInv (w : World) : Prop :=
  w.element ≠ none → w.moveListening = true ∨ w.stopPending = true

/-- Freshness of the bound-function counter: every registered move listener
was created by an earlier `bind` call, so its identity is below the
counter.  Under this invariant `removeMoveEvent` provably removes
nothing. -/
def ListenerInv (w : World) : Prop :=
  ∀ f ∈ w.moveListeners, f < w.boundId

/-- The drag session refuting C5: a qualifying continuous drag, its release
(which starts the fling), and the settle-timeout fire (1 ms later, while the
10-step fling is still running). -/
def evsCoast : List Ev :=
  [Ev.start true 0 0 0, Ev.move (-30) 0 10, Ev.endEv 250, Ev.stopFire]

/-- A world in which a fling of remaining delta (100, 0) with step budget 10
and tick counter 0 is the active interval. -/
def wFling : World :=
  { init with flings := [(0, ⟨true, 100, 0, 10, 0⟩)], scrollInterval := some 0 }

/-!  Lemmas about `findScrollable`.  -/

/-- `findScrollable` satisfies the recursion of the source verbatim: a null
start yields null; a scrollable start is returned; once the iteration counter
passes `iterationLimit` the search gives up; otherwise it recurses on the
parent with the counter incremented. -/
theorem findScrollable_recurrence (dom : Dom) (lim : ℕ) (st : Option ℕ)
    (it : ℕ) :
    findScrollable dom lim st it =
      match st with
      | none => none
      | some e =>
          if dom.isScrollable e then some e
          else if it > lim then none
          else findScrollable dom lim (dom.parent e) (it + 1) := by
  cases st with
  | none => simp [findScrollable, findScrollableAux]
  | some e =>
      by_cases hs : dom.isScrollable e = true
      · have hall : ∀ fuel, findScrollableAux dom fuel (some e) = some e := by
          intro fuel
          cases fuel <;> simp [findScrollableAux, hs]
        simp [findScrollable, hall, hs]
      · by_cases hit : it > lim
        · have h0 : lim + 1 - it = 0 := by omega
          simp [findScrollable, h0, findScrollableAux, hs, hit]
        · have h1 : lim + 1 - it = (lim + 1 - (it + 1)) + 1 := by omega
          rw [findScrollable, h1]
          simp [findScrollableAux, hs, hit, findScrollable]

/-- When no element within `fuel` hops of the start (inclusive) is
scrollable, the fuel-indexed search fails. -/
theorem findScrollableAux_eq_none (dom : Dom) :
    ∀ (fuel e0 : ℕ),
      (∀ k, k ≤ fuel → ∀ a, hop dom e0 k = some a →
        dom.isScrollable a = false) →
      findScrollableAux dom fuel (some e0) = none := by
  intro fuel
  induction fuel with
  | zero =>
      intro e0 h
      have h0 := h 0 (Nat.le_refl 0) e0 rfl
      simp [findScrollableAux, h0]
  | succ f ih =>
      intro e0 h
      have h0 := h 0 (Nat.zero_le _) e0 rfl
      simp only [findScrollableAux, h0, Bool.false_eq_true, if_false]
      cases hp : dom.parent e0 with
      | none => simp [findScrollableAux]
      | some p =>
          apply ih
          intro k hk a ha
          apply h (k + 1) (by omega)
          simpa [hop, hp] using ha

/-- When the nearest scrollable element sits `k ≤ fuel` hops above the start,
the fuel-indexed search returns it. -/
theorem findScrollableAux_eq_some (dom : Dom) :
    ∀ (k fuel e0 a : ℕ), k ≤ fuel → hop dom e0 k = some a →
      dom.isScrollable a = true →
      (∀ j, j < k → ∀ b, hop dom e0 j = some b →
        dom.isScrollable b = false) →
      findScrollableAux dom fuel (some e0) = some a := by
  intro k
  induction k with
  | zero =>
      intro fuel e0 a _ ha hs _
      obtain rfl : e0 = a := by simpa [hop] using ha
      cases fuel <;> simp [findScrollableAux, hs]
  | succ j ih =>
      intro fuel e0 a hk ha hs hmin
      have h0 : dom.isScrollable e0 = false := hmin 0 (Nat.succ_pos j) e0 rfl
      cases fuel with
      | zero => omega
      | succ f =>
          simp only [findScrollableAux, h0, Bool.false_eq_true, if_false]
          cases hp : dom.parent e0 with
          | none => simp [hop, hp] at ha
          | some p =>
              apply ih f p a (by omega) (by simpa [hop, hp] using ha) hs
              intro i hi b hb
              apply hmin (i + 1) (by omega)
              simpa [hop, hp] using hb

/-- Unfolds the decidable bound `noneScrollableBelow` into its propositional
form. -/
theorem noneScrollableBelow_iff (dom : Dom) (e n : ℕ) :
    noneScrollableBelow dom e n = true ↔
      ∀ k, k < n → ∀ a, hop dom e k = some a →
        dom.isScrollable a = false := by
  unfold noneScrollableBelow
  rw [List.all_eq_true]
  constructor
  · intro h k hk a ha
    have h2 := h k (List.mem_range.mpr hk)
    rw [ha] at h2
    simpa using h2
  · intro h k hk
    rw [List.mem_range] at hk
    cases ha : hop dom e k with
    | none => simp
    | some a => simp [h k hk a ha]

/-- C2 (amended): `findScrollable(start, 0)` examines the elements 0 through
`iterationLimit + 1` parent-hops above the start (the scrollability test runs
before the iteration-limit test, so the element one hop past the limit is
still examined).  It returns none when no element in that range satisfies
`isScrollable` (in particular whenever the chain ends first), and otherwise
returns the nearest satisfying element, counting the start itself. -/
theorem c2_amended (dom : Dom) (lim e0 : ℕ) :
    (noneScrollableBelow dom e0 (lim + 2) = true →
       findScrollable dom lim (some e0) 0 = none) ∧
    (∀ k a, k ≤ lim + 1 → hop dom e0 k = some a →
       dom.isScrollable a = true →
       noneScrollableBelow dom e0 k = true →
       findScrollable dom lim (some e0) 0 = some a) := by
  constructor
  · intro h
    rw [noneScrollableBelow_iff] at h
    unfold findScrollable
    rw [Nat.sub_zero]
    exact findScrollableAux_eq_none dom (lim + 1) e0
      (fun k hk => h k (by omega))
  · intro k a hk ha hs hmin
    rw [noneScrollableBelow_iff] at hmin
    unfold findScrollable
    rw [Nat.sub_zero]
    exact findScrollableAux_eq_some dom k (lim + 1) e0 a hk ha hs hmin

/-- C2 counterexample: with `iterationLimit = 50`, no element within 50 hops
of the start satisfies `isScrollable` (elements 0 … 50 all fail), yet
`findScrollable(start, 0)` does not return none: it returns element 51,
because the scrollability test is run before the iteration-limit test on the
element one hop past the limit. -/
theorem c2_counterexample :
    noneScrollableBelow domDeep52 0 51 = true ∧
    findScrollable domDeep52 50 (some 0) 0 = some 51 := by
  exact ⟨by decide, by decide⟩

/-- C2 witness: the spec's scenario — a 60-deep chain whose only matching
element is the outermost one and `iterationLimit = 50` — yields none, via
`c2_amended` (no element within the 52 examined hops matches). -/
theorem c2_witness :
    noneScrollableBelow domDeep60 0 52 = true ∧
    findScrollable domDeep60 50 (some 0) 0 = none :=
  ⟨by decide, (c2_amended domDeep60 50 0).1 (by decide)⟩

/-- C10: any input that is not an `HTMLElement` — a DOM node of any other
kind, which in this model carries no computed-style or extent data that the
check could consult — makes `getScrollability` return `{x: false, y: false}`
rather than fail. -/
theorem c10_nonHtmlElement (tag : String) :
    getScrollability (DomNode.otherNode tag) = (false, false) := rfl

/-!  Field projections of the timer registry helpers.  -/

@[simp] theorem clearIntervalW_element (w : World) :
    (clearIntervalW w).element = w.element := by
  unfold clearIntervalW; cases w.scrollInterval <;> rfl

@[simp] theorem clearIntervalW_lastDeltaX (w : World) :
    (clearIntervalW w).lastDeltaX = w.lastDeltaX := by
  unfold clearIntervalW; cases w.scrollInterval <;> rfl

@[simp] theorem clearIntervalW_lastDeltaY (w : World) :
    (clearIntervalW w).lastDeltaY = w.lastDeltaY := by
  unfold clearIntervalW; cases w.scrollInterval <;> rfl

@[simp] theorem clearIntervalW_lastEnd (w : World) :
    (clearIntervalW w).lastEnd = w.lastEnd := by
  unfold clearIntervalW; cases w.scrollInterval <;> rfl

@[simp] theorem clearIntervalW_lastStart (w : World) :
    (clearIntervalW w).lastStart = w.lastStart := by
  unfold clearIntervalW; cases w.scrollInterval <;> rfl

@[simp] theorem clearIntervalW_lastX (w : World) :
    (clearIntervalW w).lastX = w.lastX := by
  unfold clearIntervalW; cases w.scrollInterval <;> rfl

@[simp] theorem clearIntervalW_lastY (w : World) :
    (clearIntervalW w).lastY = w.lastY := by
  unfold clearIntervalW; cases w.scrollInterval <;> rfl

@[simp] theorem clearIntervalW_scrolling (w : World) :
    (clearIntervalW w).scrolling = w.scrolling := by
  unfold clearIntervalW; cases w.scrollInterval <;> rfl

@[simp] theorem clearIntervalW_totalDelta (w : World) :
    (clearIntervalW w).totalDelta = w.totalDelta := by
  unfold clearIntervalW; cases w.scrollInterval <;> rfl

@[simp] theorem clearIntervalW_moveListening (w : World) :
    (clearIntervalW w).moveListening = w.moveListening := by
  unfold clearIntervalW; cases w.scrollInterval <;> rfl

@[simp] theorem clearIntervalW_stopPending (w : World) :
    (clearIntervalW w).stopPending = w.stopPending := by
  unfold clearIntervalW; cases w.scrollInterval <;> rfl

@[simp] theorem clearIntervalW_scrollInterval (w : World) :
    (clearIntervalW w).scrollInterval = w.scrollInterval := by
  cases hsi : w.scrollInterval <;> simp [clearIntervalW, hsi]

@[simp] theorem clearIntervalW_nextId (w : World) :
    (clearIntervalW w).nextId = w.nextId := by
  unfold clearIntervalW; cases w.scrollInterval <;> rfl

@[simp] theorem clearIntervalW_scrollLeft (w : World) :
    (clearIntervalW w).scrollLeft = w.scrollLeft := by
  unfold clearIntervalW; cases w.scrollInterval <;> rfl

@[simp] theorem clearIntervalW_scrollTop (w : World) :
    (clearIntervalW w).scrollTop = w.scrollTop := by
  unfold clearIntervalW; cases w.scrollInterval <;> rfl

@[simp] theorem smoothScrollBy_element (w : World) (el : Bool) (x y T : ℚ) :
    (smoothScrollBy w el x y T).element = w.element := by
  unfold smoothScrollBy; split <;> simp

@[simp] theorem smoothScrollBy_lastDeltaX (w : World) (el : Bool) (x y T : ℚ) :
    (smoothScrollBy w el x y T).lastDeltaX = w.lastDeltaX := by
  unfold smoothScrollBy; split <;> simp

@[simp] theorem smoothScrollBy_lastDeltaY (w : World) (el : Bool) (x y T : ℚ) :
    (smoothScrollBy w el x y T).lastDeltaY = w.lastDeltaY := by
  unfold smoothScrollBy; split <;> simp

@[simp] theorem smoothScrollBy_lastEnd (w : World) (el : Bool) (x y T : ℚ) :
    (smoothScrollBy w el x y T).lastEnd = w.lastEnd := by
  unfold smoothScrollBy; split <;> simp

@[simp] theorem smoothScrollBy_lastStart (w : World) (el : Bool) (x y T : ℚ) :
    (smoothScrollBy w el x y T).lastStart = w.lastStart := by
  unfold smoothScrollBy; split <;> simp

@[simp] theorem smoothScrollBy_lastX (w : World) (el : Bool) (x y T : ℚ) :
    (smoothScrollBy w el x y T).lastX = w.lastX := by
  unfold smoothScrollBy; split <;> simp

@[simp] theorem smoothScrollBy_lastY (w : World) (el : Bool) (x y T : ℚ) :
    (smoothScrollBy w el x y T).lastY = w.lastY := by
  unfold smoothScrollBy; split <;> simp

@[simp] theorem smoothScrollBy_scrolling (w : World) (el : Bool) (x y T : ℚ) :
    (smoothScrollBy w el x y T).scrolling = w.scrolling := by
  unfold smoothScrollBy; split <;> simp

@[simp] theorem smoothScrollBy_totalDelta (w : World) (el : Bool) (x y T : ℚ) :
    (smoothScrollBy w el x y T).totalDelta = w.totalDelta := by
  unfold smoothScrollBy; split <;> simp

@[simp] theorem smoothScrollBy_moveListening (w : World) (el : Bool) (x y T : ℚ) :
    (smoothScrollBy w el x y T).moveListening = w.moveListening := by
  unfold smoothScrollBy; split <;> simp

@[simp] theorem smoothScrollBy_stopPending (w : World) (el : Bool) (x y T : ℚ) :
    (smoothScrollBy w el x y T).stopPending = w.stopPending := by
  unfold smoothScrollBy; split <;> simp

@[simp] theorem smoothScrollBy_scrollLeft (w : World) (el : Bool) (x y T : ℚ) :
    (smoothScrollBy w el x y T).scrollLeft = w.scrollLeft := by
  unfold smoothScrollBy; split <;> simp

@[simp] theorem smoothScrollBy_scrollTop (w : World) (el : Bool) (x y T : ℚ) :
    (smoothScrollBy w el x y T).scrollTop = w.scrollTop := by
  unfold smoothScrollBy; split <;> simp

@[simp] theorem smoothScrollBy_nextId (w : World) (el : Bool) (x y T : ℚ) :
    (smoothScrollBy w el x y T).nextId = w.nextId + 1 := by
  unfold smoothScrollBy; split <;> simp

@[simp] theorem smoothScrollBy_scrollInterval (w : World) (el : Bool) (x y T : ℚ) :
    (smoothScrollBy w el x y T).scrollInterval = some w.nextId := by
  unfold smoothScrollBy; split <;> simp

theorem smoothScrollBy_flings (w : World) (el : Bool) (x y T : ℚ) :
    (smoothScrollBy w el x y T).flings =
      (if w.scrollInterval ≠ none then clearIntervalW w else w).flings ++
        [(w.nextId, ⟨el, x, y, T, 0⟩)] := by
  unfold smoothScrollBy; split <;> simp

/-!  Field projections of `addMoveEvent` and `removeMoveEvent`: both only
touch the listener registry and the bound-function counter.  -/

@[simp] theorem addMoveEvent_element (w : World) :
    (addMoveEvent w).element = w.element := rfl

@[simp] theorem addMoveEvent_lastDeltaX (w : World) :
    (addMoveEvent w).lastDeltaX = w.lastDeltaX := rfl

@[simp] theorem addMoveEvent_lastDeltaY (w : World) :
    (addMoveEvent w).lastDeltaY = w.lastDeltaY := rfl

@[simp] theorem addMoveEvent_lastEnd (w : World) :
    (addMoveEvent w).lastEnd = w.lastEnd := rfl

@[simp] theorem addMoveEvent_lastStart (w : World) :
    (addMoveEvent w).lastStart = w.lastStart := rfl

@[simp] theorem addMoveEvent_lastX (w : World) :
    (addMoveEvent w).lastX = w.lastX := rfl

@[simp] theorem addMoveEvent_lastY (w : World) :
    (addMoveEvent w).lastY = w.lastY := rfl

@[simp] theorem addMoveEvent_scrolling (w : World) :
    (addMoveEvent w).scrolling = w.scrolling := rfl

@[simp] theorem addMoveEvent_totalDelta (w : World) :
    (addMoveEvent w).totalDelta = w.totalDelta := rfl

@[simp] theorem addMoveEvent_moveListening (w : World) :
    (addMoveEvent w).moveListening = w.moveListening := rfl

@[simp] theorem addMoveEvent_stopPending (w : World) :
    (addMoveEvent w).stopPending = w.stopPending := rfl

@[simp] theorem addMoveEvent_flings (w : World) :
    (addMoveEvent w).flings = w.flings := rfl

@[simp] theorem addMoveEvent_scrollInterval (w : World) :
    (addMoveEvent w).scrollInterval = w.scrollInterval := rfl

@[simp] theorem addMoveEvent_nextId (w : World) :
    (addMoveEvent w).nextId = w.nextId := rfl

@[simp] theorem addMoveEvent_scrollLeft (w : World) :
    (addMoveEvent w).scrollLeft = w.scrollLeft := rfl

@[simp] theorem addMoveEvent_scrollTop (w : World) :
    (addMoveEvent w).scrollTop = w.scrollTop := rfl

@[simp] theorem removeMoveEvent_element (w : World) :
    (removeMoveEvent w).element = w.element := rfl

@[simp] theorem removeMoveEvent_lastDeltaX (w : World) :
    (removeMoveEvent w).lastDeltaX = w.lastDeltaX := rfl

@[simp] theorem removeMoveEvent_lastDeltaY (w : World) :
    (removeMoveEvent w).lastDeltaY = w.lastDeltaY := rfl

@[simp] theorem removeMoveEvent_lastEnd (w : World) :
    (removeMoveEvent w).lastEnd = w.lastEnd := rfl

@[simp] theorem removeMoveEvent_lastStart (w : World) :
    (removeMoveEvent w).lastStart = w.lastStart := rfl

@[simp] theorem removeMoveEvent_lastX (w : World) :
    (removeMoveEvent w).lastX = w.lastX := rfl

@[simp] theorem removeMoveEvent_lastY (w : World) :
    (removeMoveEvent w).lastY = w.lastY := rfl

@[simp] theorem removeMoveEvent_scrolling (w : World) :
    (removeMoveEvent w).scrolling = w.scrolling := rfl

@[simp] theorem removeMoveEvent_totalDelta (w : World) :
    (removeMoveEvent w).totalDelta = w.totalDelta := rfl

@[simp] theorem removeMoveEvent_moveListening (w : World) :
    (removeMoveEvent w).moveListening = w.moveListening := rfl

@[simp] theorem removeMoveEvent_stopPending (w : World) :
    (removeMoveEvent w).stopPending = w.stopPending := rfl

@[simp] theorem removeMoveEvent_flings (w : World) :
    (removeMoveEvent w).flings = w.flings := rfl

@[simp] theorem removeMoveEvent_scrollInterval (w : World) :
    (removeMoveEvent w).scrollInterval = w.scrollInterval := rfl

@[simp] theorem removeMoveEvent_nextId (w : World) :
    (removeMoveEvent w).nextId = w.nextId := rfl

@[simp] theorem removeMoveEvent_scrollLeft (w : World) :
    (removeMoveEvent w).scrollLeft = w.scrollLeft := rfl

@[simp] theorem removeMoveEvent_scrollTop (w : World) :
    (removeMoveEvent w).scrollTop = w.scrollTop := rfl

/-!  The listener registry and bound-function counter through the other
handlers.  -/

@[simp] theorem clearIntervalW_moveListeners (w : World) :
    (clearIntervalW w).moveListeners = w.moveListeners := by
  unfold clearIntervalW; cases w.scrollInterval <;> rfl

@[simp] theorem clearIntervalW_boundId (w : World) :
    (clearIntervalW w).boundId = w.boundId := by
  unfold clearIntervalW; cases w.scrollInterval <;> rfl

@[simp] theorem smoothScrollBy_moveListeners (w : World) (el : Bool)
    (x y T : ℚ) : (smoothScrollBy w el x y T).moveListeners =
      w.moveListeners := by
  unfold smoothScrollBy; split <;> simp

@[simp] theorem smoothScrollBy_boundId (w : World) (el : Bool) (x y T : ℚ) :
    (smoothScrollBy w el x y T).boundId = w.boundId := by
  unfold smoothScrollBy; split <;> simp

@[simp] theorem scrollBy_moveListeners (c : Config) (w : World) (x y : ℚ) :
    (scrollBy c w x y).moveListeners = w.moveListeners := by
  cases ht : c.type <;> simp [scrollBy, ht]

@[simp] theorem scrollBy_boundId (c : Config) (w : World) (x y : ℚ) :
    (scrollBy c w x y).boundId = w.boundId := by
  cases ht : c.type <;> simp [scrollBy, ht]

/-- C4: on a qualifying release in continuous mode, `onEnd` starts a fling
whose per-axis velocity is the accumulated velocity of that axis divided by
`(end timestamp − lastStart) * TIME_MULTIPLIER`, except that an axis whose
accumulated velocity is exactly zero gets velocity 0 through the explicit
zero guard, and whose step budget is `MOVEMENT_STEPS` divided by the same
scaled elapsed time. -/
theorem c4_fling_velocity (c : Config) (w : World) (t : ℚ)
    (hc : c.continuous = true) (hq : ¬ w.totalDelta < c.minimum) :
    (onEnd c w t).1.flings.getLast? =
      some (w.nextId,
        ⟨w.element.isSome,
         if w.lastDeltaX ≠ 0 then
           w.lastDeltaX / ((t - w.lastStart) * TIME_MULTIPLIER) else 0,
         if w.lastDeltaY ≠ 0 then
           w.lastDeltaY / ((t - w.lastStart) * TIME_MULTIPLIER) else 0,
         MOVEMENT_STEPS / ((t - w.lastStart) * TIME_MULTIPLIER), 0⟩) := by
  simp only [onEnd, removeMoveEvent, hq, if_false, hc, if_true]
  simp [smoothScrollBy_flings]

/-- C4 witness: the spec's concrete numbers — accumulated x-delta 100 over a
250 ms window gives per-step velocity `100 / (250 * 0.008) = 50` applied over
`20 / (250 * 0.008) = 10` ticks, and the zero y-axis yields velocity 0. -/
theorem c4_witness :
    (onEnd cfgB wRelease 250).1.flings.getLast? =
      some (0, ⟨true, 50, 0, 10, 0⟩) := by
  have h := c4_fling_velocity cfgB wRelease 250 rfl
    (by norm_num [wRelease, cfgB, init])
  rw [h]
  norm_num [wRelease, init, TIME_MULTIPLIER, MOVEMENT_STEPS]

/-!  Field projections of `scrollBy`, `onStart` and `onMove`.  -/

@[simp] theorem scrollBy_element (c : Config) (w : World) (x y : ℚ) :
    (scrollBy c w x y).element = w.element := by
  cases ht : c.type <;> simp [scrollBy, ht]

@[simp] theorem scrollBy_lastDeltaX (c : Config) (w : World) (x y : ℚ) :
    (scrollBy c w x y).lastDeltaX = w.lastDeltaX := by
  cases ht : c.type <;> simp [scrollBy, ht]

@[simp] theorem scrollBy_lastDeltaY (c : Config) (w : World) (x y : ℚ) :
    (scrollBy c w x y).lastDeltaY = w.lastDeltaY := by
  cases ht : c.type <;> simp [scrollBy, ht]

@[simp] theorem scrollBy_lastStart (c : Config) (w : World) (x y : ℚ) :
    (scrollBy c w x y).lastStart = w.lastStart := by
  cases ht : c.type <;> simp [scrollBy, ht]

@[simp] theorem scrollBy_lastX (c : Config) (w : World) (x y : ℚ) :
    (scrollBy c w x y).lastX = w.lastX := by
  cases ht : c.type <;> simp [scrollBy, ht]

@[simp] theorem scrollBy_lastY (c : Config) (w : World) (x y : ℚ) :
    (scrollBy c w x y).lastY = w.lastY := by
  cases ht : c.type <;> simp [scrollBy, ht]

@[simp] theorem scrollBy_scrolling (c : Config) (w : World) (x y : ℚ) :
    (scrollBy c w x y).scrolling = w.scrolling := by
  cases ht : c.type <;> simp [scrollBy, ht]

@[simp] theorem scrollBy_totalDelta (c : Config) (w : World) (x y : ℚ) :
    (scrollBy c w x y).totalDelta = w.totalDelta := by
  cases ht : c.type <;> simp [scrollBy, ht]

@[simp] theorem scrollBy_moveListening (c : Config) (w : World) (x y : ℚ) :
    (scrollBy c w x y).moveListening = w.moveListening := by
  cases ht : c.type <;> simp [scrollBy, ht]

@[simp] theorem scrollBy_stopPending (c : Config) (w : World) (x y : ℚ) :
    (scrollBy c w x y).stopPending = w.stopPending := by
  cases ht : c.type <;> simp [scrollBy, ht]

@[simp] theorem scrollBy_flings (c : Config) (w : World) (x y : ℚ) :
    (scrollBy c w x y).flings = w.flings := by
  cases ht : c.type <;> simp [scrollBy, ht]

@[simp] theorem scrollBy_scrollInterval (c : Config) (w : World) (x y : ℚ) :
    (scrollBy c w x y).scrollInterval = w.scrollInterval := by
  cases ht : c.type <;> simp [scrollBy, ht]

@[simp] theorem scrollBy_nextId (c : Config) (w : World) (x y : ℚ) :
    (scrollBy c w x y).nextId = w.nextId := by
  cases ht : c.type <;> simp [scrollBy, ht]

/-- A start event that finds a scrollable element: the resulting state in one
record. -/
theorem onStart_found (c : Config) (w : World) (x y t : ℚ) :
    onStart c w true x y t =
      { w with element := some (), totalDelta := 0,
               lastStart := if c.continuous then t else w.lastStart,
               lastX := x, lastY := y, moveListening := true,
               moveListeners := w.moveListeners ++ [w.boundId],
               boundId := w.boundId + 1 } := by
  cases hc : c.continuous <;> simp [onStart, addMoveEvent, hc]

/-- A start event that finds no scrollable element only clears `element`. -/
theorem onStart_notFound (c : Config) (w : World) (x y t : ℚ) :
    onStart c w false x y t = { w with element := none } := by
  simp [onStart]

@[simp] theorem onMove_flings (c : Config) (w : World) (x y t : ℚ) :
    (onMove c w x y t).1.flings = w.flings := by
  cases he : w.element <;> simp [onMove, he] <;> split_ifs <;> simp

@[simp] theorem onMove_scrollInterval (c : Config) (w : World) (x y t : ℚ) :
    (onMove c w x y t).1.scrollInterval = w.scrollInterval := by
  cases he : w.element <;> simp [onMove, he] <;> split_ifs <;> simp

@[simp] theorem onMove_nextId (c : Config) (w : World) (x y t : ℚ) :
    (onMove c w x y t).1.nextId = w.nextId := by
  cases he : w.element <;> simp [onMove, he] <;> split_ifs <;> simp

@[simp] theorem onMove_element (c : Config) (w : World) (x y t : ℚ) :
    (onMove c w x y t).1.element = w.element := by
  cases he : w.element <;> simp [onMove, he] <;> split_ifs <;> simp [he]

@[simp] theorem onMove_moveListening (c : Config) (w : World) (x y t : ℚ) :
    (onMove c w x y t).1.moveListening = w.moveListening := by
  cases he : w.element <;> simp [onMove, he] <;> split_ifs <;> simp

@[simp] theorem onMove_stopPending (c : Config) (w : World) (x y t : ℚ) :
    (onMove c w x y t).1.stopPending = w.stopPending := by
  cases he : w.element <;> simp [onMove, he] <;> split_ifs <;> simp

/-- A move event with an element set: the coordinate bookkeeping. -/
theorem onMove_some_coords (c : Config) (w : World) (x y t : ℚ)
    (he : w.element = some ()) :
    (onMove c w x y t).1.lastX = x ∧ (onMove c w x y t).1.lastY = y ∧
    (onMove c w x y t).1.totalDelta =
      w.totalDelta + (|w.lastX - x| + |w.lastY - y|) := by
  simp only [onMove, he]
  split_ifs <;> simp [add_assoc]

/-- A move event never moves `lastStart` past its own timestamp. -/
theorem onMove_lastStart_le (c : Config) (w : World) (x y t : ℚ)
    (h : w.lastStart ≤ t) : (onMove c w x y t).1.lastStart ≤ t := by
  cases he : w.element with
  | none => simpa [onMove, he] using h
  | some u => simp only [onMove, he]; split_ifs <;> simp [h]

/-- A move event that leaves `totalDelta` at or below `minimum` does not
touch the scrolling flag or the velocity accumulator. -/
theorem onMove_below (c : Config) (w : World) (x y t : ℚ)
    (he : w.element = some ())
    (hle : w.totalDelta + (|w.lastX - x| + |w.lastY - y|) ≤ c.minimum) :
    (onMove c w x y t).1.lastDeltaX = w.lastDeltaX ∧
    (onMove c w x y t).1.lastDeltaY = w.lastDeltaY ∧
    (onMove c w x y t).1.scrolling = w.scrolling := by
  have hng : ¬ w.totalDelta + |w.lastX - x| + |w.lastY - y| > c.minimum := by
    rw [add_assoc]; exact not_lt.mpr hle
  simp [onMove, he, hng]

/-- A move event past the distance threshold whose gap since `lastStart`
exceeds the zero-motion threshold resets the velocity accumulator (in
continuous mode). -/
theorem onMove_reset (c : Config) (w : World) (x y t : ℚ)
    (he : w.element = some ()) (hc : c.continuous = true)
    (hgt : w.totalDelta + (|w.lastX - x| + |w.lastY - y|) > c.minimum)
    (hgap : t - w.lastStart > ZERO_THRESHOLD) :
    (onMove c w x y t).1.lastDeltaX = 0 ∧
    (onMove c w x y t).1.lastDeltaY = 0 := by
  have hg : w.totalDelta + |w.lastX - x| + |w.lastY - y| > c.minimum := by
    rw [add_assoc]; exact hgt
  simp [onMove, he, hg, hc, hgap]

/-- C6: for two consecutive move events of a drag whose time gap exceeds the
200 ms zero-motion threshold, the later move's handler leaves both components
of the velocity accumulator at zero, so velocity from before the pause never
reaches the release computation.  (The hypothesis `hzero` is the drag-session
invariant that no velocity has accumulated while `totalDelta` is still at or
below `minimum`; `hstart` says the timing window began no later than the
earlier move.) -/
theorem c6_pause_resets_velocity (c : Config) (w : World)
    (x1 y1 t1 x2 y2 t2 : ℚ)
    (hc : c.continuous = true) (hel : w.element = some ())
    (hstart : w.lastStart ≤ t1) (hgap : t2 - t1 > ZERO_THRESHOLD)
    (hzero : w.totalDelta ≤ c.minimum →
      w.lastDeltaX = 0 ∧ w.lastDeltaY = 0) :
    (onMove c (onMove c w x1 y1 t1).1 x2 y2 t2).1.lastDeltaX = 0 ∧
    (onMove c (onMove c w x1 y1 t1).1 x2 y2 t2).1.lastDeltaY = 0 := by
  set w1 := (onMove c w x1 y1 t1).1 with hw1
  have hel1 : w1.element = some () := by rw [hw1, onMove_element, hel]
  have hco : w1.lastX = x1 ∧ w1.lastY = y1 ∧
      w1.totalDelta = w.totalDelta + (|w.lastX - x1| + |w.lastY - y1|) :=
    onMove_some_coords c w x1 y1 t1 hel
  have hls : w1.lastStart ≤ t1 := onMove_lastStart_le c w x1 y1 t1 hstart
  have hgap1 : t2 - w1.lastStart > ZERO_THRESHOLD := by
    have : t2 - t1 ≤ t2 - w1.lastStart := by linarith
    linarith
  by_cases h2 : w1.totalDelta + (|w1.lastX - x2| + |w1.lastY - y2|) >
      c.minimum
  · exact onMove_reset c w1 x2 y2 t2 hel1 hc h2 hgap1
  · have h2le : w1.totalDelta + (|w1.lastX - x2| + |w1.lastY - y2|) ≤
        c.minimum := not_lt.mp h2
    have hd2 : 0 ≤ |w1.lastX - x2| + |w1.lastY - y2| :=
      add_nonneg (abs_nonneg _) (abs_nonneg _)
    have hd1 : 0 ≤ |w.lastX - x1| + |w.lastY - y1| :=
      add_nonneg (abs_nonneg _) (abs_nonneg _)
    have h1le : w.totalDelta + (|w.lastX - x1| + |w.lastY - y1|) ≤
        c.minimum := by
      rw [← hco.2.2]; linarith
    have hk1 := onMove_below c w x1 y1 t1 hel h1le
    have hk2 := onMove_below c w1 x2 y2 t2 hel1 h2le
    have h0 := hzero (by linarith)
    rw [hk2.1, hk2.2.1, hw1, hk1.1, hk1.2.1]
    exact h0

/-- C6 witness: a drag that accumulates x-velocity 100 at `t = 10` and then
pauses until `t = 300` (gap 290 ms > 200 ms) has both accumulator components
reset by the later move. -/
theorem c6_witness :
    (onMove cfgB wE (-100) 0 10).1.lastDeltaX = 100 ∧
    (onMove cfgB (onMove cfgB wE (-100) 0 10).1 (-100) 0 300).1.lastDeltaX
      = 0 ∧
    (onMove cfgB (onMove cfgB wE (-100) 0 10).1 (-100) 0 300).1.lastDeltaY
      = 0 := by
  refine ⟨?_, ?_, ?_⟩
  · norm_num [onMove, wE, init, cfgB, scrollBy, getDelta, ZERO_THRESHOLD]
  all_goals
    have h := c6_pause_resets_velocity cfgB wE (-100) 0 10 (-100) 0 300 rfl
      (by norm_num [wE, init]) (by norm_num [wE, init])
      (by norm_num [ZERO_THRESHOLD])
      (by intro hcontra; norm_num [wE, init])
  · exact h.1
  · exact h.2

/-- With a horizontal-only configuration no event handler or timer callback
writes the vertical offset. -/
theorem step_scrollTop_eq (c : Config) (w : World) (e : Ev)
    (h : c.type = TouchTypes.HORIZONTAL) :
    (step c w e).scrollTop = w.scrollTop := by
  cases e with
  | start found x y t =>
      cases found
      · rw [step, onStart_notFound]
      · rw [step, onStart_found]
  | move x y t =>
      cases he : w.element with
      | none => simp [step, onMove, he]
      | some u =>
          simp only [step, onMove, he]
          split_ifs <;> simp [scrollBy, h]
  | endEv t =>
      simp only [step, onEnd]
      split_ifs <;> simp
  | stopFire =>
      simp only [step, onStopTimeout]
      split_ifs <;> rfl
  | tick id =>
      simp only [step, flingTick]
      cases hf : w.flings.find? (fun p => p.1 == id) with
      | none => rfl
      | some pf =>
          obtain ⟨i, f⟩ := pf
          simp only
          split_ifs <;> simp_all

/-- With a vertical-only configuration no event handler or timer callback
writes the horizontal offset. -/
theorem step_scrollLeft_eq (c : Config) (w : World) (e : Ev)
    (h : c.type = TouchTypes.VERTICAL) :
    (step c w e).scrollLeft = w.scrollLeft := by
  cases e with
  | start found x y t =>
      cases found
      · rw [step, onStart_notFound]
      · rw [step, onStart_found]
  | move x y t =>
      cases he : w.element with
      | none => simp [step, onMove, he]
      | some u =>
          simp only [step, onMove, he]
          split_ifs <;> simp [scrollBy, h]
  | endEv t =>
      simp only [step, onEnd]
      split_ifs <;> simp
  | stopFire =>
      simp only [step, onStopTimeout]
      split_ifs <;> rfl
  | tick id =>
      simp only [step, flingTick]
      cases hf : w.flings.find? (fun p => p.1 == id) with
      | none => rfl
      | some pf =>
          obtain ⟨i, f⟩ := pf
          simp only
          split_ifs <;> simp_all

/-- C7: with `axisMode = Horizontal` no sequence of delivered events (drag
moves, releases, fling ticks, timeouts) ever mutates the vertical scroll
offset, and symmetrically with `axisMode = Vertical` the horizontal offset is
never mutated. -/
theorem c7_axis_isolation (c : Config) (w : World) (evs : List Ev) :
    (c.type = TouchTypes.HORIZONTAL →
      (run c w evs).scrollTop = w.scrollTop) ∧
    (c.type = TouchTypes.VERTICAL →
      (run c w evs).scrollLeft = w.scrollLeft) := by
  induction evs generalizing w with
  | nil => exact ⟨fun _ => rfl, fun _ => rfl⟩
  | cons e es ih =>
      constructor
      · intro h
        exact ((ih (step c w e)).1 h).trans (step_scrollTop_eq c w e h)
      · intro h
        exact ((ih (step c w e)).2 h).trans (step_scrollLeft_eq c w e h)

/-- C7 witness: a drag with a purely vertical pointer delta under the
horizontal configuration leaves `scrollTop` at 7, and symmetrically a
horizontal delta under the vertical configuration leaves `scrollLeft` at
5. -/
theorem c7_witness :
    (run cfgH wOff [Ev.start true 0 0 0, Ev.move 0 50 10]).scrollTop = 7 ∧
    (run cfgV wOff [Ev.start true 0 0 0, Ev.move 50 0 10]).scrollLeft = 5 := by
  constructor
  · rw [(c7_axis_isolation cfgH wOff [Ev.start true 0 0 0, Ev.move 0 50 10]).1
      rfl]
    norm_num [wOff, init]
  · rw [(c7_axis_isolation cfgV wOff [Ev.start true 0 0 0, Ev.move 50 0 10]).2
      rfl]
    norm_num [wOff, init]

/-- `smoothScrollBy` always leaves exactly its freshly created interval
active: it clears the stored one first. -/
theorem FlingInv_smoothScrollBy (w : World) (hw : FlingInv w) (el : Bool)
    (x y T : ℚ) : FlingInv (smoothScrollBy w el x y T) := by
  refine Or.inr ⟨w.nextId, ⟨el, x, y, T, 0⟩, by simp, ?_⟩
  rw [smoothScrollBy_flings]
  rcases hw with hnil | ⟨h0, f0, hsi, hfl⟩
  · split_ifs with hcond
    · cases hsi : w.scrollInterval with
      | none => simp [clearIntervalW, hsi, hnil]
      | some h1 => simp [clearIntervalW, hsi, hnil]
    · simp [hnil]
  · have hne : w.scrollInterval ≠ none := by rw [hsi]; simp
    rw [if_pos hne]
    simp [clearIntervalW, hsi, hfl]

/-- The timer-registry invariant only looks at the registry and the stored
handle. -/
theorem FlingInv_of_eq (w1 w2 : World) (hf : w1.flings = w2.flings)
    (hs : w1.scrollInterval = w2.scrollInterval) (h : FlingInv w1) :
    FlingInv w2 := by
  unfold FlingInv at h ⊢
  rw [← hf, ← hs]
  exact h

/-- `onEnd` preserves the timer-registry invariant. -/
theorem FlingInv_onEnd (c : Config) (w : World) (t : ℚ) (hw : FlingInv w) :
    FlingInv (onEnd c w t).1 := by
  by_cases h : w.totalDelta < c.minimum
  · simp only [onEnd, removeMoveEvent, h, if_true]
    exact hw
  · cases hc : c.continuous
    · simp only [onEnd, removeMoveEvent, h, if_false, hc, Bool.false_eq_true]
      exact hw
    · simp only [onEnd, removeMoveEvent, h, if_false, hc, if_true]
      apply FlingInv_of_eq
        (smoothScrollBy
          { removeMoveEvent w with moveListening := false, lastEnd := t }
          w.element.isSome
          (if w.lastDeltaX ≠ 0 then
            w.lastDeltaX / ((t - w.lastStart) * TIME_MULTIPLIER) else 0)
          (if w.lastDeltaY ≠ 0 then
            w.lastDeltaY / ((t - w.lastStart) * TIME_MULTIPLIER) else 0)
          (MOVEMENT_STEPS / ((t - w.lastStart) * TIME_MULTIPLIER)))
        _ rfl rfl
      apply FlingInv_smoothScrollBy
        { removeMoveEvent w with moveListening := false, lastEnd := t }
      exact hw

/-- `flingTick` preserves the timer-registry invariant. -/
theorem FlingInv_flingTick (c : Config) (w : World) (id : ℕ)
    (hw : FlingInv w) : FlingInv (flingTick c w id) := by
  cases hf : w.flings.find? (fun p => p.1 == id) with
  | none => simpa [flingTick, hf] using hw
  | some pf =>
      obtain ⟨i, f⟩ := pf
      rcases hw with hnil | ⟨h0, f0, hsi, hfl⟩
      · rw [hnil] at hf
        simp [List.find?] at hf
      · rw [hfl] at hf
        by_cases hid : h0 == id
        · simp only [List.find?, hid] at hf
          obtain ⟨hi, hff⟩ := Prod.mk.injEq .. ▸ (Option.some.injEq .. ▸ hf)
          subst hi hff
          simp only [flingTick, hfl, List.find?, hid]
          by_cases hfe : f0.element = false
          · rw [if_pos hfe]
            left
            simp [clearIntervalW, hsi, hfl]
          · rw [if_neg hfe]
            by_cases hcnt : ((f0.count + 1 : ℕ) : ℚ) ≥ f0.time
            · rw [if_pos hcnt]
              left
              simp [clearIntervalW, hsi]
            · rw [if_neg hcnt]
              right
              refine ⟨h0,
                ⟨f0.element,
                 if 1 < |f0.dx| ∧ c.type ≠ TouchTypes.VERTICAL then
                   f0.dx - f0.dx / f0.time else f0.dx,
                 if 1 < |f0.dy| ∧ c.type ≠ TouchTypes.HORIZONTAL then
                   f0.dy - f0.dy / f0.time else f0.dy,
                 f0.time, f0.count + 1⟩,
                by simp [hsi], by simp⟩
        · simp only [List.find?, hid] at hf
          simp [List.find?] at hf

@[simp] theorem flingTick_element (c : Config) (w : World) (id : ℕ) :
    (flingTick c w id).element = w.element := by
  cases hf : w.flings.find? (fun p => p.1 == id) with
  | none => simp [flingTick, hf]
  | some pf =>
      obtain ⟨i, f⟩ := pf
      simp only [flingTick, hf]
      split_ifs <;> simp

@[simp] theorem flingTick_moveListening (c : Config) (w : World) (id : ℕ) :
    (flingTick c w id).moveListening = w.moveListening := by
  cases hf : w.flings.find? (fun p => p.1 == id) with
  | none => simp [flingTick, hf]
  | some pf =>
      obtain ⟨i, f⟩ := pf
      simp only [flingTick, hf]
      split_ifs <;> simp

@[simp] theorem flingTick_stopPending (c : Config) (w : World) (id : ℕ) :
    (flingTick c w id).stopPending = w.stopPending := by
  cases hf : w.flings.find? (fun p => p.1 == id) with
  | none => simp [flingTick, hf]
  | some pf =>
      obtain ⟨i, f⟩ := pf
      simp only [flingTick, hf]
      split_ifs <;> simp

@[simp] theorem flingTick_scrolling (c : Config) (w : World) (id : ℕ) :
    (flingTick c w id).scrolling = w.scrolling := by
  cases hf : w.flings.find? (fun p => p.1 == id) with
  | none => simp [flingTick, hf]
  | some pf =>
      obtain ⟨i, f⟩ := pf
      simp only [flingTick, hf]
      split_ifs <;> simp

/-- Every event delivery preserves the timer-registry invariant. -/
theorem step_FlingInv (c : Config) (w : World) (e : Ev) (hw : FlingInv w) :
    FlingInv (step c w e) := by
  cases e with
  | start found x y t =>
      cases found
      · rw [step, onStart_notFound]; exact hw
      · rw [step, onStart_found]; exact hw
  | move x y t =>
      exact FlingInv_of_eq w _ (onMove_flings c w x y t).symm
        (onMove_scrollInterval c w x y t).symm hw
  | endEv t => exact FlingInv_onEnd c w t hw
  | stopFire =>
      simp only [step, onStopTimeout]
      split_ifs <;> exact hw
  | tick id => exact FlingInv_flingTick c w id hw

/-- The timer-registry invariant holds in every state reachable from the
fresh instance. -/
theorem run_FlingInv (c : Config) : ∀ (evs : List Ev) (w : World),
    FlingInv w → FlingInv (run c w evs) := by
  intro evs
  induction evs with
  | nil => exact fun w hw => hw
  | cons e es ih => exact fun w hw => ih (step c w e) (step_FlingInv c w e hw)

/-- C9: at most one fling animation interval exists per controller instance
at any time: in every state reachable from a fresh instance by any event
sequence, the active-interval registry holds at most one entry, because
`smoothScrollBy` cancels the stored interval before creating the next one. -/
theorem c9_single_fling (c : Config) (evs : List Ev) :
    (run c init evs).flings.length ≤ 1 := by
  rcases run_FlingInv c evs init (Or.inl rfl) with hnil | ⟨h0, f0, _, hfl⟩
  · simp [hnil]
  · simp [hfl]

/-- Every event delivery preserves `ElementInv`. -/
theorem step_ElementInv (c : Config) (w : World) (e : Ev)
    (hw : ElementInv w) : ElementInv (step c w e) := by
  cases e with
  | start found x y t =>
      cases found
      · rw [step, onStart_notFound]
        intro hel
        exact absurd rfl hel
      · rw [step, onStart_found]
        intro _
        exact Or.inl rfl
  | move x y t =>
      simp only [step]
      intro hel
      rw [onMove_element] at hel
      rw [onMove_moveListening, onMove_stopPending]
      exact hw hel
  | endEv t =>
      simp only [step]
      by_cases h : w.totalDelta < c.minimum
      · simp only [onEnd, removeMoveEvent_totalDelta, h, if_true]
        intro hel
        exact absurd rfl hel
      · cases hc : c.continuous <;>
          simp only [onEnd, removeMoveEvent_totalDelta, h, if_false, hc,
            Bool.false_eq_true, if_true] <;>
          exact fun _ => Or.inr rfl
  | stopFire =>
      simp only [step, onStopTimeout]
      split_ifs
      · intro hel
        exact absurd rfl hel
      · exact hw
  | tick id =>
      simp only [step]
      intro hel
      rw [flingTick_element] at hel
      rw [flingTick_moveListening, flingTick_stopPending]
      exact hw hel

/-- `ElementInv` holds in every state reachable from the fresh instance. -/
theorem run_ElementInv (c : Config) : ∀ (evs : List Ev) (w : World),
    ElementInv w → ElementInv (run c w evs) := by
  intro evs
  induction evs with
  | nil => exact fun w hw => hw
  | cons e es ih => exact fun w hw => ih (step c w e) (step_ElementInv c w e hw)

@[simp] theorem addMoveEvent_moveListeners (w : World) :
    (addMoveEvent w).moveListeners = w.moveListeners ++ [w.boundId] := rfl

@[simp] theorem addMoveEvent_boundId (w : World) :
    (addMoveEvent w).boundId = w.boundId + 1 := rfl

@[simp] theorem removeMoveEvent_boundId (w : World) :
    (removeMoveEvent w).boundId = w.boundId + 1 := rfl

@[simp] theorem onMove_moveListeners (c : Config) (w : World) (x y t : ℚ) :
    (onMove c w x y t).1.moveListeners = w.moveListeners := by
  cases he : w.element <;> simp [onMove, he] <;> split_ifs <;> simp

@[simp] theorem onMove_boundId (c : Config) (w : World) (x y t : ℚ) :
    (onMove c w x y t).1.boundId = w.boundId := by
  cases he : w.element <;> simp [onMove, he] <;> split_ifs <;> simp

@[simp] theorem flingTick_moveListeners (c : Config) (w : World) (id : ℕ) :
    (flingTick c w id).moveListeners = w.moveListeners := by
  cases hf : w.flings.find? (fun p => p.1 == id) with
  | none => simp [flingTick, hf]
  | some pf =>
      obtain ⟨i, f⟩ := pf
      simp only [flingTick, hf]
      split_ifs <;> simp

@[simp] theorem flingTick_boundId (c : Config) (w : World) (id : ℕ) :
    (flingTick c w id).boundId = w.boundId := by
  cases hf : w.flings.find? (fun p => p.1 == id) with
  | none => simp [flingTick, hf]
  | some pf =>
      obtain ⟨i, f⟩ := pf
      simp only [flingTick, hf]
      split_ifs <;> simp

/-- Under listener freshness, `removeMoveEvent` provably removes nothing:
the freshly bound function's identity equals no registered one. -/
theorem removeMoveEvent_moveListeners (w : World) (hw : ListenerInv w) :
    (removeMoveEvent w).moveListeners = w.moveListeners := by
  show w.moveListeners.filter (fun f => f ≠ w.boundId) = w.moveListeners
  rw [List.filter_eq_self]
  intro a ha
  simpa using Nat.ne_of_lt (hw a ha)

/-- `onEnd` changes the listener registry exactly as its `removeMoveEvent`
call does; no other part of the handler touches it. -/
theorem onEnd_moveListeners (c : Config) (w : World) (t : ℚ) :
    (onEnd c w t).1.moveListeners = (removeMoveEvent w).moveListeners := by
  by_cases h : w.totalDelta < c.minimum
  · simp [onEnd, h]
  · cases hc : c.continuous <;> simp [onEnd, h, hc]

/-- `onEnd` advances the bound-function counter by the one bind it
performs. -/
theorem onEnd_boundId (c : Config) (w : World) (t : ℚ) :
    (onEnd c w t).1.boundId = w.boundId + 1 := by
  by_cases h : w.totalDelta < c.minimum
  · simp [onEnd, h]
  · cases hc : c.continuous <;> simp [onEnd, h, hc]

/-- Every event delivery preserves listener freshness. -/
theorem step_ListenerInv (c : Config) (w : World) (e : Ev)
    (hw : ListenerInv w) : ListenerInv (step c w e) := by
  cases e with
  | start found x y t =>
      cases found
      · rw [step, onStart_notFound]
        exact hw
      · rw [step, onStart_found]
        intro f hf
        simp only [List.mem_append, List.mem_singleton] at hf
        rcases hf with hf | rfl
        · exact Nat.lt_succ_of_lt (hw f hf)
        · exact Nat.lt_succ_self _
  | move x y t =>
      intro f hf
      rw [step, onMove_moveListeners] at hf
      rw [step, onMove_boundId]
      exact hw f hf
  | endEv t =>
      intro f hf
      rw [step, onEnd_moveListeners] at hf
      have hf2 : f ∈ w.moveListeners := by
        simp only [removeMoveEvent, List.mem_filter] at hf
        exact hf.1
      rw [step, onEnd_boundId]
      exact Nat.lt_succ_of_lt (hw f hf2)
  | stopFire =>
      intro f hf
      unfold step onStopTimeout at hf ⊢
      split_ifs at hf ⊢ <;> exact hw f hf
  | tick id =>
      intro f hf
      rw [step, flingTick_moveListeners] at hf
      rw [step, flingTick_boundId]
      exact hw f hf

/-- Listener freshness holds in every state reachable from the fresh
instance. -/
theorem run_ListenerInv (c : Config) : ∀ (evs : List Ev) (w : World),
    ListenerInv w → ListenerInv (run c w evs) := by
  intro evs
  induction evs with
  | nil => exact fun w hw => hw
  | cons e es ih =>
      exact fun w hw => ih (step c w e) (step_ListenerInv c w e hw)

/-- C8 (code bug): on an end event whose accumulated distance is below
`minimum`, the controller does clear the active element and the scrolling
flag immediately, starts no fling, and leaves the default action
unsuppressed — but it does NOT stop listening to move events, contrary to
the claim and to `removeMoveEvent`'s evident intent: in every reachable
state, `onEnd` leaves the registered move listeners exactly as they were,
because `removeEventListener` is handed a freshly created
`this.onMove.bind(this)` that is reference-equal to no registered listener.
Concretely, after a start event (which registers listener 0) and a
below-threshold end event, listener 0 is still attached. -/
theorem c8_code_bug :
    (∀ (c : Config) (evs : List Ev) (t : ℚ),
       (onEnd c (run c init evs) t).1.moveListeners =
         (run c init evs).moveListeners) ∧
    (run cfgB init [Ev.start true 0 0 0]).moveListeners = [0] ∧
    (run cfgB init [Ev.start true 0 0 0, Ev.endEv 20]).moveListeners = [0] ∧
    (run cfgB init [Ev.start true 0 0 0, Ev.endEv 20]).element = none ∧
    (run cfgB init [Ev.start true 0 0 0, Ev.endEv 20]).scrolling = false ∧
    (run cfgB init [Ev.start true 0 0 0, Ev.endEv 20]).flings = [] ∧
    (run cfgB init [Ev.start true 0 0 0, Ev.endEv 20]).nextId = 0 ∧
    (onEnd cfgB (run cfgB init [Ev.start true 0 0 0]) 20).2 = false := by
  constructor
  · intro c evs t
    rw [onEnd_moveListeners]
    refine removeMoveEvent_moveListeners _ (run_ListenerInv c evs init ?_)
    intro f hf
    simp [init] at hf
  · refine ⟨?_, ?_, ?_, ?_, ?_, ?_, ?_⟩ <;>
      norm_num [run, step, onStart, onEnd, addMoveEvent, removeMoveEvent,
        cfgB, init]

/-- C5 counterexample: after the settle clear fires mid-fling, the controller
is coasting (the fling interval is still active) yet the active element
reference is null, so "element non-null iff tracking or coasting" fails in a
reachable state. -/
theorem c5_counterexample :
    ¬ ((run cfgB init evsCoast).element ≠ none ↔
        (Tracking (run cfgB init evsCoast) ∨
         Coasting (run cfgB init evsCoast))) := by
  have hrun : (run cfgB init evsCoast).element = none ∧
      (run cfgB init evsCoast).flings ≠ [] := by
    norm_num [run, evsCoast, step, onStart, onMove, onEnd, onStopTimeout,
      smoothScrollBy, clearIntervalW, scrollBy, getDelta, cfgB, init,
      ZERO_THRESHOLD, TIME_MULTIPLIER, MOVEMENT_STEPS]
  intro hiff
  have h2 := hiff.mpr (Or.inr hrun.2)
  rw [hrun.1] at h2
  exact h2 rfl

/-- C5 (amended): in every reachable state, a non-null active element implies
the controller is tracking (listening for moves) or the settle-delay clear
from a qualifying release is still pending.  The converse direction of the
original claim fails: coasting continues after the settle clear nulls the
element (see the counterexample). -/
theorem c5_amended (c : Config) (evs : List Ev)
    (hel : (run c init evs).element ≠ none) :
    Tracking (run c init evs) ∨ (run c init evs).stopPending = true := by
  have hinv : ElementInv (run c init evs) :=
    run_ElementInv c evs init (fun h => absurd rfl h)
  exact hinv hel

/-- C5 witness: right after a start event that finds a scrollable element the
element is non-null, and `c5_amended` places the controller in the tracking
phase. -/
theorem c5_witness :
    (run cfgB init [Ev.start true 0 0 0]).element ≠ none ∧
    (Tracking (run cfgB init [Ev.start true 0 0 0]) ∨
     (run cfgB init [Ev.start true 0 0 0]).stopPending = true) := by
  have hel : (run cfgB init [Ev.start true 0 0 0]).element ≠ none := by
    simp [run, step, onStart, cfgB, init]
  exact ⟨hel, c5_amended cfgB [Ev.start true 0 0 0] hel⟩

/-!  Helpers for reasoning about whole drag sessions.  -/

theorem run_cons (c : Config) (w : World) (e : Ev) (evs : List Ev) :
    run c w (e :: evs) = run c (step c w e) evs := rfl

theorem run_append (c : Config) (w : World) (l1 l2 : List Ev) :
    run c w (l1 ++ l2) = run c (run c w l1) l2 := by
  unfold run
  exact List.foldl_append _ _ _ _

theorem sessionDistance_nonneg : ∀ (ms : List (ℚ × ℚ × ℚ)) (x y : ℚ),
    0 ≤ sessionDistance x y ms := by
  intro ms
  induction ms with
  | nil => intro x y; simp [sessionDistance]
  | cons m rest ih =>
      intro x y
      obtain ⟨x2, y2, t2⟩ := m
      have h1 : 0 ≤ |x - x2| + |y - y2| :=
        add_nonneg (abs_nonneg _) (abs_nonneg _)
      have h2 := ih x2 y2
      simp only [sessionDistance]
      linarith

/-- `onEnd` always leaves the scrolling flag cleared. -/
theorem onEnd_scrolling_false (c : Config) (w : World) (t : ℚ) :
    (onEnd c w t).1.scrolling = false := by
  by_cases h : w.totalDelta < c.minimum
  · simp [onEnd, removeMoveEvent, h]
  · cases hc : c.continuous <;> simp [onEnd, removeMoveEvent, h, hc]

/-- The settle-timeout callback never sets the scrolling flag. -/
theorem onStopTimeout_scrolling_false (w : World) (h : w.scrolling = false) :
    (onStopTimeout w).scrolling = false := by
  unfold onStopTimeout
  split_ifs <;> simp [h]

/-- The tap-rejection branch of `onEnd` in one lemma. -/
theorem onEnd_tap (c : Config) (w : World) (t : ℚ)
    (h : w.totalDelta < c.minimum) :
    (onEnd c w t).1.element = none ∧ (onEnd c w t).1.scrolling = false ∧
    (onEnd c w t).1.moveListening = false ∧
    (onEnd c w t).1.flings = w.flings ∧
    (onEnd c w t).1.nextId = w.nextId ∧
    (onEnd c w t).1.stopPending = w.stopPending ∧
    (onEnd c w t).2 = false := by
  simp [onEnd, removeMoveEvent, h]

/-- A move event that pushes `totalDelta` past `minimum` sets the scrolling
flag. -/
theorem onMove_above (c : Config) (w : World) (x y t : ℚ)
    (he : w.element = some ())
    (hgt : w.totalDelta + (|w.lastX - x| + |w.lastY - y|) > c.minimum) :
    (onMove c w x y t).1.scrolling = true := by
  have hg : w.totalDelta + |w.lastX - x| + |w.lastY - y| > c.minimum := by
    rw [add_assoc]; exact hgt
  simp only [onMove, he]
  split_ifs <;> simp_all

/-- Running a list of move events from a tracking state: the element stays
set, the timer state is untouched, and `totalDelta` grows by exactly the
session distance. -/
theorem run_moveEvs (c : Config) : ∀ (ms : List (ℚ × ℚ × ℚ)) (w : World),
    w.element = some () →
    (run c w (moveEvs ms)).element = some () ∧
    (run c w (moveEvs ms)).flings = w.flings ∧
    (run c w (moveEvs ms)).nextId = w.nextId ∧
    (run c w (moveEvs ms)).totalDelta =
      w.totalDelta + sessionDistance w.lastX w.lastY ms := by
  intro ms
  induction ms with
  | nil => exact fun w hw => ⟨hw, rfl, rfl, by simp [sessionDistance, moveEvs, run]⟩
  | cons m rest ih =>
      intro w hw
      obtain ⟨x, y, t⟩ := m
      have hw1 : (onMove c w x y t).1.element = some () := by
        rw [onMove_element]; exact hw
      have hco := onMove_some_coords c w x y t hw
      have hrest := ih (onMove c w x y t).1 hw1
      have hunf : run c w (moveEvs ((x, y, t) :: rest)) =
          run c (onMove c w x y t).1 (moveEvs rest) := rfl
      rw [hunf]
      refine ⟨hrest.1, ?_, ?_, ?_⟩
      · rw [hrest.2.1, onMove_flings]
      · rw [hrest.2.2.1, onMove_nextId]
      · rw [hrest.2.2.2, hco.1, hco.2.1, hco.2.2]
        simp only [sessionDistance]
        ring

/-- While the accumulated distance stays at or below `minimum`, every prefix
of the move stream leaves the scrolling flag false. -/
theorem run_moveEvs_below (c : Config) : ∀ (ms : List (ℚ × ℚ × ℚ)) (w : World),
    w.element = some () → w.scrolling = false →
    w.totalDelta + sessionDistance w.lastX w.lastY ms ≤ c.minimum →
    ∀ n, (run c w ((moveEvs ms).take n)).scrolling = false := by
  intro ms
  induction ms with
  | nil =>
      intro w _ hs _ n
      simpa [moveEvs, run] using hs
  | cons m rest ih =>
      intro w hw hs hd n
      obtain ⟨x, y, t⟩ := m
      cases n with
      | zero => simpa [run] using hs
      | succ k =>
          have hdr := sessionDistance_nonneg rest x y
          have hsd : sessionDistance w.lastX w.lastY ((x, y, t) :: rest) =
              (|w.lastX - x| + |w.lastY - y|) + sessionDistance x y rest := rfl
          rw [hsd] at hd
          have hw1 : (onMove c w x y t).1.element = some () := by
            rw [onMove_element]; exact hw
          have hco := onMove_some_coords c w x y t hw
          have hb := onMove_below c w x y t hw (by linarith)
          have hs1 : (onMove c w x y t).1.scrolling = false := by
            rw [hb.2.2]; exact hs
          have hd1 : (onMove c w x y t).1.totalDelta +
              sessionDistance (onMove c w x y t).1.lastX
                (onMove c w x y t).1.lastY rest ≤ c.minimum := by
            rw [hco.1, hco.2.1, hco.2.2]; linarith
          exact ih (onMove c w x y t).1 hw1 hs1 hd1 k

/-- Once the total session distance strictly exceeds `minimum`, the scrolling
flag is set after the full move stream. -/
theorem run_moveEvs_above (c : Config) : ∀ (ms : List (ℚ × ℚ × ℚ)) (w : World),
    w.element = some () →
    (ms = [] → w.scrolling = true) →
    c.minimum < w.totalDelta + sessionDistance w.lastX w.lastY ms →
    (run c w (moveEvs ms)).scrolling = true := by
  intro ms
  induction ms with
  | nil =>
      intro w _ hbase _
      simpa [moveEvs, run] using hbase rfl
  | cons m rest ih =>
      intro w hw hbase hgt
      obtain ⟨x, y, t⟩ := m
      have hsd : sessionDistance w.lastX w.lastY ((x, y, t) :: rest) =
          (|w.lastX - x| + |w.lastY - y|) + sessionDistance x y rest := rfl
      rw [hsd] at hgt
      have hw1 : (onMove c w x y t).1.element = some () := by
        rw [onMove_element]; exact hw
      have hco := onMove_some_coords c w x y t hw
      apply ih (onMove c w x y t).1 hw1
      · intro hrest
        subst hrest
        have h0 : sessionDistance x y ([] : List (ℚ × ℚ × ℚ)) = 0 := rfl
        rw [h0] at hgt
        exact onMove_above c w x y t hw (by linarith)
      · rw [hco.1, hco.2.1, hco.2.2]
        linarith

/-- C1 (amended): for a drag session started from an idle state, if the total
accumulated distance is strictly below `minimum` then `isScrolling()` is
false throughout (after the start and after every move), still false right
after release and after the settle clear, and no fling starts (the interval
registry and the handle counter are untouched); if it is strictly above
`minimum` then `isScrolling()` is true at the end of tracking and false again
immediately after the release and after the settle clear.  (The original
claim's "≥ minimumDistance" boundary is wrong: at distance exactly equal to
`minimum` the flag is never set, because the source tests
`totalDelta > minimum` strictly — see the counterexample.) -/
theorem c1_amended (c : Config) (w0 : World) (x0 y0 t0 te : ℚ)
    (ms : List (ℚ × ℚ × ℚ)) (hscr : w0.scrolling = false)
    (hmin : 0 ≤ c.minimum) :
    (sessionDistance x0 y0 ms < c.minimum →
       (∀ n, isScrolling
          (run c w0 ((Ev.start true x0 y0 t0 :: moveEvs ms).take n)) =
          false) ∧
       isScrolling (run c w0 (sessionEvs x0 y0 t0 ms te)) = false ∧
       isScrolling
         (run c w0 (sessionEvs x0 y0 t0 ms te ++ [Ev.stopFire])) = false ∧
       (run c w0 (sessionEvs x0 y0 t0 ms te)).nextId = w0.nextId ∧
       (run c w0 (sessionEvs x0 y0 t0 ms te)).flings = w0.flings) ∧
    (c.minimum < sessionDistance x0 y0 ms →
       isScrolling (run c w0 (Ev.start true x0 y0 t0 :: moveEvs ms)) = true ∧
       isScrolling (run c w0 (sessionEvs x0 y0 t0 ms te)) = false ∧
       isScrolling
         (run c w0 (sessionEvs x0 y0 t0 ms te ++ [Ev.stopFire])) = false) := by
  have h1el : (onStart c w0 true x0 y0 t0).element = some () := by
    rw [onStart_found]
  have h1scr : (onStart c w0 true x0 y0 t0).scrolling = false := by
    rw [onStart_found]; exact hscr
  have h1td : (onStart c w0 true x0 y0 t0).totalDelta = 0 := by
    rw [onStart_found]
  have h1x : (onStart c w0 true x0 y0 t0).lastX = x0 := by
    rw [onStart_found]
  have h1y : (onStart c w0 true x0 y0 t0).lastY = y0 := by
    rw [onStart_found]
  have h1fl : (onStart c w0 true x0 y0 t0).flings = w0.flings := by
    rw [onStart_found]
  have h1id : (onStart c w0 true x0 y0 t0).nextId = w0.nextId := by
    rw [onStart_found]
  have hmchar := run_moveEvs c ms (onStart c w0 true x0 y0 t0) h1el
  have hmd : (run c (onStart c w0 true x0 y0 t0) (moveEvs ms)).totalDelta =
      sessionDistance x0 y0 ms := by
    rw [hmchar.2.2.2, h1td, h1x, h1y, zero_add]
  have hsess : run c w0 (sessionEvs x0 y0 t0 ms te) =
      (onEnd c (run c (onStart c w0 true x0 y0 t0) (moveEvs ms)) te).1 := by
    show run c w0 (Ev.start true x0 y0 t0 :: (moveEvs ms ++ [Ev.endEv te])) = _
    rw [run_cons, run_append]
    rfl
  have hsessStop : run c w0 (sessionEvs x0 y0 t0 ms te ++ [Ev.stopFire]) =
      onStopTimeout
        (onEnd c (run c (onStart c w0 true x0 y0 t0) (moveEvs ms)) te).1 := by
    rw [run_append, hsess]
    rfl
  have hstart : run c w0 (Ev.start true x0 y0 t0 :: moveEvs ms) =
      run c (onStart c w0 true x0 y0 t0) (moveEvs ms) := rfl
  have hendscr : isScrolling (run c w0 (sessionEvs x0 y0 t0 ms te)) =
      false := by
    rw [hsess, isScrolling, onEnd_scrolling_false]
    rfl
  have hstopscr : isScrolling
      (run c w0 (sessionEvs x0 y0 t0 ms te ++ [Ev.stopFire])) = false := by
    rw [hsessStop, isScrolling,
      onStopTimeout_scrolling_false _ (onEnd_scrolling_false _ _ _)]
    rfl
  constructor
  · intro hd
    have hdle : (onStart c w0 true x0 y0 t0).totalDelta +
        sessionDistance (onStart c w0 true x0 y0 t0).lastX
          (onStart c w0 true x0 y0 t0).lastY ms ≤ c.minimum := by
      rw [h1td, h1x, h1y, zero_add]
      exact le_of_lt hd
    have htap : (run c (onStart c w0 true x0 y0 t0) (moveEvs ms)).totalDelta <
        c.minimum := by rw [hmd]; exact hd
    refine ⟨?_, hendscr, hstopscr, ?_, ?_⟩
    · intro n
      cases n with
      | zero => simp [run, isScrolling, hscr]
      | succ k =>
          have hk : (Ev.start true x0 y0 t0 :: moveEvs ms).take (k + 1) =
              Ev.start true x0 y0 t0 :: (moveEvs ms).take k := rfl
          rw [hk, run_cons]
          have hb := run_moveEvs_below c ms (onStart c w0 true x0 y0 t0)
            h1el h1scr hdle k
          show ((run c (onStart c w0 true x0 y0 t0)
            ((moveEvs ms).take k)).scrolling &&
            (run c (onStart c w0 true x0 y0 t0)
              ((moveEvs ms).take k)).element.isSome) = false
          rw [hb]
          rfl
    · rw [hsess, (onEnd_tap c _ te htap).2.2.2.2.1, hmchar.2.2.1, h1id]
    · rw [hsess, (onEnd_tap c _ te htap).2.2.2.1, hmchar.2.1, h1fl]
  · intro hd
    refine ⟨?_, hendscr, hstopscr⟩
    have hnil : ms = [] → (onStart c w0 true x0 y0 t0).scrolling = true := by
      intro hrest
      subst hrest
      have h0 : sessionDistance x0 y0 ([] : List (ℚ × ℚ × ℚ)) = 0 := rfl
      rw [h0] at hd
      linarith
    have hgt : c.minimum < (onStart c w0 true x0 y0 t0).totalDelta +
        sessionDistance (onStart c w0 true x0 y0 t0).lastX
          (onStart c w0 true x0 y0 t0).lastY ms := by
      rw [h1td, h1x, h1y, zero_add]
      exact hd
    have ha := run_moveEvs_above c ms (onStart c w0 true x0 y0 t0)
      h1el hnil hgt
    rw [hstart, isScrolling, ha, hmchar.1]
    rfl

/-- C1 counterexample: a drag whose total accumulated distance is exactly
`minimumDistance` (one move of 25 px with `minimum = 25`, so the distance is
≥ the threshold) never makes `isScrolling()` true at any point of tracking:
the source tests `totalDelta > minimum` strictly. -/
theorem c1_counterexample :
    sessionDistance 0 0 [(25, 0, 10)] ≥ cfgB.minimum ∧
    isScrolling
      (run cfgB init ((Ev.start true 0 0 0 :: moveEvs [(25, 0, 10)]).take 1))
      = false ∧
    isScrolling (run cfgB init (Ev.start true 0 0 0 :: moveEvs [(25, 0, 10)]))
      = false ∧
    isScrolling (run cfgB init (sessionEvs 0 0 0 [(25, 0, 10)] 20)) =
      false := by
  refine ⟨?_, ?_, ?_, ?_⟩ <;>
    norm_num [sessionDistance, sessionEvs, moveEvs, run, step, isScrolling,
      onStart, onMove, onEnd, onStopTimeout, scrollBy, getDelta, cfgB, init,
      ZERO_THRESHOLD]

/-- C1 witness: a 10 px drag (below the 25 px threshold) keeps
`isScrolling()` false through tracking and release and starts no fling; a
30 px drag (above it) has `isScrolling()` true at the end of tracking and
false right after release. -/
theorem c1_witness :
    (sessionDistance 0 0 [(10, 0, 10)] < cfgB.minimum ∧
     isScrolling (run cfgB init (Ev.start true 0 0 0 :: moveEvs [(10, 0, 10)]))
       = false ∧
     isScrolling (run cfgB init (sessionEvs 0 0 0 [(10, 0, 10)] 20)) = false ∧
     (run cfgB init (sessionEvs 0 0 0 [(10, 0, 10)] 20)).nextId =
       init.nextId) ∧
    (cfgB.minimum < sessionDistance 0 0 [(30, 0, 10)] ∧
     isScrolling (run cfgB init (Ev.start true 0 0 0 :: moveEvs [(30, 0, 10)]))
       = true ∧
     isScrolling (run cfgB init (sessionEvs 0 0 0 [(30, 0, 10)] 20)) =
       false) := by
  have hd1 : sessionDistance 0 0 [((10 : ℚ), (0 : ℚ), (10 : ℚ))] <
      cfgB.minimum := by
    norm_num [sessionDistance, cfgB]
  have hd2 : cfgB.minimum <
      sessionDistance 0 0 [((30 : ℚ), (0 : ℚ), (10 : ℚ))] := by
    norm_num [sessionDistance, cfgB]
  have h1 := (c1_amended cfgB init 0 0 0 20 [(10, 0, 10)] rfl
    (by norm_num [cfgB])).1 hd1
  have h2 := (c1_amended cfgB init 0 0 0 20 [(30, 0, 10)] rfl
    (by norm_num [cfgB])).2 hd2
  exact ⟨⟨hd1, by simpa using h1.1 2, h1.2.1, h1.2.2.2.1⟩,
    ⟨hd2, h2.1, h2.2.1⟩⟩

theorem ite_clearIntervalW_scrollLeft (b : Prop) [Decidable b] (w : World) :
    (if b then clearIntervalW w else w).scrollLeft = w.scrollLeft := by
  split_ifs <;> simp

theorem ite_clearIntervalW_scrollTop (b : Prop) [Decidable b] (w : World) :
    (if b then clearIntervalW w else w).scrollTop = w.scrollTop := by
  split_ifs <;> simp

/-- C3 counterexample: with remaining delta 100 and step budget 10, the first
tick applies 10 (leaving remaining 90 and one tick taken); the second tick
applies `90 / 10 = 9` — the remaining delta divided by the FIXED step budget
`time` — and not `remaining / stepsLeft = 90 / (10 - 1) = 10` as the claim
states. -/
theorem c3_counterexample :
    (flingTick cfgB wFling 0).flings = [(0, ⟨true, 90, 0, 10, 1⟩)] ∧
    (flingTick cfgB (flingTick cfgB wFling 0) 0).scrollLeft -
      (flingTick cfgB wFling 0).scrollLeft = 9 ∧
    ¬ ((flingTick cfgB (flingTick cfgB wFling 0) 0).scrollLeft -
        (flingTick cfgB wFling 0).scrollLeft = 90 / ((10 : ℚ) - 1)) := by
  have hBV : TouchTypes.BOTH ≠ TouchTypes.VERTICAL := by decide
  refine ⟨?_, ?_, ?_⟩ <;>
    norm_num [flingTick, wFling, cfgB, init, clearIntervalW, List.find?, hBV]

/-- C3 (amended): each tick of the fling interval applies
`remaining / time` — the remaining delta divided by the FIXED step budget the
interval was started with, not by the number of steps left — to each axis
whose remaining magnitude exceeds 1 px and which the axis mode permits, and
subtracts the applied amount from that axis's remaining delta; an axis whose
remaining magnitude is ≤ 1 px receives no write; the tick counter increments,
and the interval self-cancels when the counter reaches the step budget or
when the captured element reference is unavailable. -/
theorem c3_amended (c : Config) (w : World) (id : ℕ) (f : Fling)
    (hfl : w.flings = [(id, f)]) (hsi : w.scrollInterval = some id) :
    (f.element = false →
       (flingTick c w id).flings = [] ∧
       (flingTick c w id).scrollLeft = w.scrollLeft ∧
       (flingTick c w id).scrollTop = w.scrollTop) ∧
    (f.element = true →
       (flingTick c w id).scrollLeft = w.scrollLeft +
         (if 1 < |f.dx| ∧ c.type ≠ TouchTypes.VERTICAL then f.dx / f.time
          else 0) ∧
       (flingTick c w id).scrollTop = w.scrollTop +
         (if 1 < |f.dy| ∧ c.type ≠ TouchTypes.HORIZONTAL then f.dy / f.time
          else 0) ∧
       (flingTick c w id).flings =
         (if ((f.count + 1 : ℕ) : ℚ) ≥ f.time then []
          else [(id, ⟨true,
            f.dx - (if 1 < |f.dx| ∧ c.type ≠ TouchTypes.VERTICAL then
              f.dx / f.time else 0),
            f.dy - (if 1 < |f.dy| ∧ c.type ≠ TouchTypes.HORIZONTAL then
              f.dy / f.time else 0),
            f.time, f.count + 1⟩)])) := by
  have hfind : w.flings.find? (fun p => p.1 == id) = some (id, f) := by
    rw [hfl]
    simp [List.find?]
  constructor
  · intro hfe
    rw [flingTick, hfind]
    simp only [hfe, if_true]
    exact ⟨by simp [clearIntervalW, hsi, hfl], by simp, by simp⟩
  · intro hfe
    have hfe2 : ¬ f.element = false := by simp [hfe]
    have hA : (if 1 < |f.dx| ∧ c.type ≠ TouchTypes.VERTICAL then
        f.dx - f.dx / f.time else f.dx) =
        f.dx - (if 1 < |f.dx| ∧ c.type ≠ TouchTypes.VERTICAL then
          f.dx / f.time else 0) := by
      split_ifs <;> simp
    have hB : (if 1 < |f.dy| ∧ c.type ≠ TouchTypes.HORIZONTAL then
        f.dy - f.dy / f.time else f.dy) =
        f.dy - (if 1 < |f.dy| ∧ c.type ≠ TouchTypes.HORIZONTAL then
          f.dy / f.time else 0) := by
      split_ifs <;> simp
    simp only [flingTick, hfind]
    rw [if_neg hfe2]
    refine ⟨?_, ?_, ?_⟩
    · rw [ite_clearIntervalW_scrollLeft]
      show (if 1 < |f.dx| ∧ c.type ≠ TouchTypes.VERTICAL then
        w.scrollLeft + f.dx / f.time else w.scrollLeft) = _
      split_ifs
      · rfl
      · simp
    · rw [ite_clearIntervalW_scrollTop]
      show (if 1 < |f.dy| ∧ c.type ≠ TouchTypes.HORIZONTAL then
        w.scrollTop + f.dy / f.time else w.scrollTop) = _
      split_ifs
      · rfl
      · simp
    · by_cases hcnt : ((f.count + 1 : ℕ) : ℚ) ≥ f.time
      · rw [if_pos hcnt, if_pos hcnt]
        simp [clearIntervalW, hsi, hfl]
      · rw [if_neg hcnt, if_neg hcnt]
        simp only [hfl, List.map_cons, List.map_nil, beq_self_eq_true,
          if_true]
        rw [hfe, hA, hB]

/-- C3 witness: the first tick of the (100, 0)-over-10-steps fling applies
`100 / 10 = 10` to the horizontal offset, subtracts it from the remaining
delta (leaving 90), does not touch the ≤ 1 px vertical axis, and increments
the tick counter without cancelling (1 < 10). -/
theorem c3_witness :
    (flingTick cfgB wFling 0).scrollLeft = 10 ∧
    (flingTick cfgB wFling 0).flings = [(0, ⟨true, 90, 0, 10, 1⟩)] := by
  have hBV : TouchTypes.BOTH ≠ TouchTypes.VERTICAL := by decide
  have hBH : TouchTypes.BOTH ≠ TouchTypes.HORIZONTAL := by decide
  have h := (c3_amended cfgB wFling 0 ⟨true, 100, 0, 10, 0⟩ rfl rfl).2 rfl
  constructor
  · rw [h.1]
    norm_num [wFling, init, cfgB, hBV]
  · rw [h.2.2]
    norm_num [cfgB, hBV, hBH]
